import Mathlib

/-!
Verification of the Reply Pass backend (FastAPI + Supabase) against its
natural-language specification.  Python strings are modelled as `List Char`
(or `String`), Python dicts as association lists, timestamps as integers,
and fallible endpoints as functions into explicit result types.
-/

namespace ReplyPass

/-! ## Core security utilities (`app/core/security.py`) -/

/-- The NUL character removed by `sanitize_input`. -/
def nulChar : Char := Char.ofNat 0

/-- The double-quote character. -/
def quoteChar : Char := Char.ofNat 34

/-- The apostrophe character. -/
def aposChar : Char := Char.ofNat 39

/-- Embeds the character filter of `SecurityUtils.sanitize_input`: keep a
character iff it is a newline, a tab, printable ASCII (32..126), or has a
code point of at least 128. -/
def keepChar (c : Char) : Bool :=
  decide (c.toNat = 10) || decide (c.toNat = 9) ||
    (decide (32 ≤ c.toNat) && decide (c.toNat ≤ 126)) || decide (128 ≤ c.toNat)

/-- Embeds Python `text.replace(pat, rep)` for a single-character pattern. -/
def replaceChar (pat : Char) (rep : List Char) : List Char → List Char
  | [] => []
  | c :: cs => (if c = pat then rep else [c]) ++ replaceChar pat rep cs

/-- The `html_escape_table` of `sanitize_input`, in Python dict insertion
order: `&`, double quote, apostrophe, `>`, `<`. -/
def htmlEscapeTable : List (Char × List Char) :=
  [(Char.ofNat 38, "&amp;".data),
   (quoteChar, "&quot;".data),
   (aposChar, "&#x27;".data),
   (Char.ofNat 62, "&gt;".data),
   (Char.ofNat 60, "&lt;".data)]

/-- Code points that Python `str.strip()` treats as whitespace. -/
def pyWhitespaceCodes : List Nat :=
  [9, 10, 11, 12, 13, 28, 29, 30, 31, 32, 133, 160, 5760,
   8192, 8193, 8194, 8195, 8196, 8197, 8198, 8199, 8200, 8201, 8202,
   8232, 8233, 8239, 8287, 12288]

/-- Python whitespace test used by `str.strip()`. -/
def isPySpace (c : Char) : Bool := pyWhitespaceCodes.contains c.toNat

/-- Embeds Python `str.strip()`: drop whitespace from both ends. -/
def pyStrip (s : List Char) : List Char :=
  ((s.dropWhile isPySpace).reverse.dropWhile isPySpace).reverse

/-- Embeds `SecurityUtils.sanitize_input(text, max_length)`: remove null
bytes, truncate to `max_length`, drop control characters except newline and
tab, apply the HTML escape table replacements in insertion order, and strip
surrounding whitespace. -/
def sanitize_input (text : List Char) (max_length : Nat) : List Char :=
  let t1 := text.filter (fun c => c ≠ nulChar)
  let t2 := t1.take max_length
  let t3 := t2.filter keepChar
  let t4 := htmlEscapeTable.foldl (fun acc p => replaceChar p.1 p.2 acc) t3
  pyStrip t4

/-- ASCII control characters: code points below 32, and DEL (127). -/
def isAsciiControl (c : Char) : Bool :=
  decide (c.toNat < 32) || decide (c.toNat = 127)

/-- Single-pass HTML entity escape of one character, written from the
claim's wording: `&`, double quote, apostrophe, `>`, `<` become `&amp;`,
`&quot;`, `&#x27;`, `&gt;`, `&lt;` respectively. -/
def escapeCharSpec (c : Char) : List Char :=
  if c = Char.ofNat 38 then "&amp;".data
  else if c = quoteChar then "&quot;".data
  else if c = aposChar then "&#x27;".data
  else if c = Char.ofNat 62 then "&gt;".data
  else if c = Char.ofNat 60 then "&lt;".data
  else [c]

/-- Single-pass HTML entity escape of a string, claim-side formulation. -/
def htmlEscapeSpec : List Char → List Char
  | [] => []
  | c :: cs => escapeCharSpec c ++ htmlEscapeSpec cs

/-- Claim-side formulation of `sanitize_input`, following the claim's list
of steps: remove all null bytes, truncate to `max_length` characters,
remove every (ASCII) control character except newline and tab, HTML-escape
the five special characters, and finally trim surrounding whitespace. -/
def sanitizeInputSpec (text : List Char) (max_length : Nat) : List Char :=
  pyStrip (htmlEscapeSpec
    (((text.filter (fun c => c ≠ nulChar)).take max_length).filter
      (fun c => decide (c.toNat = 10) || decide (c.toNat = 9) || !(isAsciiControl c))))

/-- The asterisk character used by `mask_sensitive_data`. -/
def asterisk : Char := Char.ofNat 42

/-- Embeds the Python slice `data[-v:]` (for `v = 0` it yields the whole
string, a Python slicing corner case). -/
def pySliceLast (l : List Char) (v : Nat) : List Char :=
  if v = 0 then l else l.drop (l.length - v)

/-- Embeds `SecurityUtils.mask_sensitive_data(data, visible_chars)`. -/
def mask_sensitive_data (data : List Char) (visible_chars : Nat) : List Char :=
  if data.length ≤ visible_chars * 2 then
    List.replicate data.length asterisk
  else
    data.take visible_chars ++
      List.replicate (data.length - visible_chars * 2) asterisk ++
      pySliceLast data visible_chars

/-! ## Password reset endpoint (`app/api/auth.py`, `request_password_reset`) -/

/-- The generic message returned by `POST /auth/reset-password`. -/
def passwordResetGenericMessage : String :=
  "If an account with this email exists, a password reset link has been sent"

/-- HTTP-level view of the password reset response. -/
structure PasswordResetHTTPResponse where
  status : Nat
  message : String
  email : String
deriving DecidableEq

/-- Embeds `request_password_reset`: the provider call
`supabase.auth.reset_password_email` either succeeds or raises; the raising
branch only logs and returns the same generic 200 response.  Whether an
account with the address exists only influences the provider call outcome,
which is the `sendResult` parameter. -/
def request_password_reset (email : String) (sendResult : Except String Unit) :
    PasswordResetHTTPResponse :=
  match sendResult with
  | .ok _ => ⟨200, passwordResetGenericMessage, email⟩
  | .error _ => ⟨200, passwordResetGenericMessage, email⟩

/-! ## RLS audit scoring (`scripts/verify_rls_policies.py`) -/

/-- A row of `pg_policies` as used by the auditor: policy name, the USING
clause (`qual`) and the WITH CHECK clause, both as text. -/
structure RLSPolicy where
  policyname : String
  qual : String
  with_check : String
deriving DecidableEq

/-- Tests whether the first list starts the second (Python `startswith` on
character lists), used to express substring containment. -/
def leadsWith : List Char → List Char → Bool
  | [], _ => true
  | _ :: _, [] => false
  | p :: ps, c :: cs => p == c && leadsWith ps cs

/-- Embeds the Python `in` substring test on character lists. -/
def containsSub (pat : List Char) : List Char → Bool
  | [] => leadsWith pat []
  | c :: cs => leadsWith pat (c :: cs) || containsSub pat cs

/-- Embeds `RLSSecurityAuditor._check_user_isolation`: some policy
references `auth.uid()` in its qual or with-check clause. -/
def check_user_isolation (policies : List RLSPolicy) : Bool :=
  policies.any (fun p =>
    containsSub "auth.uid()".data p.qual.data ||
      containsSub "auth.uid()".data p.with_check.data)

/-- Embeds `RLSSecurityAuditor._check_service_role_access`: some policy
references `service_role` in its qual or with-check clause. -/
def check_service_role_access (policies : List RLSPolicy) : Bool :=
  policies.any (fun p =>
    containsSub "service_role".data p.qual.data ||
      containsSub "service_role".data p.with_check.data)

/-- Embeds `RLSSecurityAuditor._calculate_security_score`.  The
`requirements.get(..., True)` flag of the source is the
`requires_user_isolation` parameter; the unused `table_name` parameter is
omitted. -/
def calculate_security_score (rls_enabled : Bool) (policies : List RLSPolicy)
    (user_isolation : Bool) (service_role_access : Bool)
    (requires_user_isolation : Bool) : Nat :=
  let score : Nat := 0
  let score := if rls_enabled then score + 30 else score
  let score := if policies.isEmpty then score else score + 20
  let score :=
    if requires_user_isolation then
      if user_isolation then score + 25 else score
    else score + 25
  let score := if service_role_access then score + 15 else score
  let score := if 2 ≤ policies.length then score + 5 else score
  let score := if 3 ≤ policies.length then score + 5 else score
  min score 100

/-- Claim-side scoring formula: `min(100, 30·[RLS] + 20·[≥1 policy] +
25·[isolation requirement satisfied] + 15·[service role] + 5·[≥2 policies]
+ 5·[≥3 policies])`. -/
def securityScoreSpec (rls_enabled : Bool) (policies : List RLSPolicy)
    (user_isolation : Bool) (service_role_access : Bool)
    (requires_user_isolation : Bool) : Nat :=
  min 100
    ((if rls_enabled then 30 else 0) +
     (if 1 ≤ policies.length then 20 else 0) +
     (if !requires_user_isolation || user_isolation then 25 else 0) +
     (if service_role_access then 15 else 0) +
     (if 2 ≤ policies.length then 5 else 0) +
     (if 3 ≤ policies.length then 5 else 0))

/-- A user-isolation policy referencing `auth.uid()`. -/
def isoPolicy : RLSPolicy :=
  ⟨"cases_user_isolation", "(user_id = auth.uid())", ""⟩

/-- A service-role access policy. -/
def servicePolicy : RLSPolicy :=
  ⟨"cases_service_role", "(auth.role() = (service_role)::text)", ""⟩

/-! ## Registration password validation (`app/schemas/auth.py`) -/

instance {ε α : Type} [DecidableEq ε] [DecidableEq α] : DecidableEq (Except ε α) := fun x y =>
  match x, y with
  | .ok a, .ok b =>
    if h : a = b then .isTrue (by rw [h])
    else .isFalse (fun hh => h (Except.ok.inj hh))
  | .error a, .error b =>
    if h : a = b then .isTrue (by rw [h])
    else .isFalse (fun hh => h (Except.error.inj hh))
  | .ok _, .error _ => .isFalse (fun hh => Except.noConfusion hh)
  | .error _, .ok _ => .isFalse (fun hh => Except.noConfusion hh)

/-- Uppercase-letter test of the `[A-Z]` regex search. -/
def hasUpper (s : String) : Bool :=
  s.data.any (fun c => decide (65 ≤ c.toNat) && decide (c.toNat ≤ 90))

/-- Lowercase-letter test of the `[a-z]` regex search. -/
def hasLower (s : String) : Bool :=
  s.data.any (fun c => decide (97 ≤ c.toNat) && decide (c.toNat ≤ 122))

/-- Digit test of the `\d` regex search (decimal digits, modelled ASCII). -/
def hasDigit (s : String) : Bool :=
  s.data.any (fun c => decide (48 ≤ c.toNat) && decide (c.toNat ≤ 57))

/-- The special-character class of the password regex, by code point:
`! @ # $ % ^ & * ( ) , . ? : | < >` plus double quote and both braces. -/
def specialChars : List Char :=
  [33, 64, 35, 36, 37, 94, 38, 42, 40, 41, 44, 46, 63, 34, 58,
   123, 125, 124, 60, 62].map Char.ofNat

/-- Special-character test of the password regex search. -/
def hasSpecial (s : String) : Bool :=
  s.data.any (fun c => specialChars.contains c)

/-- Embeds `UserRegistrationRequest.validate_password_strength`: the checks
fire in source order and the first failure wins.  The pydantic field
constraints `min_length=8` / `max_length=128` duplicate the two length
checks and reject the same inputs. -/
def validate_password_strength (v : String) : Except String String :=
  if v.length < 8 then .error "Password must be at least 8 characters long"
  else if 128 < v.length then .error "Password must not exceed 128 characters"
  else if !hasUpper v then .error "Password must contain at least one uppercase letter"
  else if !hasLower v then .error "Password must contain at least one lowercase letter"
  else if !hasDigit v then .error "Password must contain at least one digit"
  else if !hasSpecial v then .error "Password must contain at least one special character"
  else .ok v

/-- Embeds the `passwords_match` model validator. -/
def passwords_match (password confirm_password : String) : Except String Unit :=
  if password ≠ confirm_password then .error "Passwords do not match" else .ok ()

/-- Embeds pydantic validation order on `UserRegistrationRequest`: the
`password` field validator runs first, and the mode-after model validator
`passwords_match` runs only when field validation succeeded. -/
def validateRegistrationPasswords (password confirm_password : String) :
    Except String Unit :=
  match validate_password_strength password with
  | .error e => .error e
  | .ok _ => passwords_match password confirm_password

/-! ## Health aggregation (`app/core/health.py`) -/

/-- Health status constants. -/
inductive HStatus
  | healthy
  | degraded
  | unhealthy
deriving DecidableEq

/-- A dependency health result, reduced to the fields the aggregation
reads: probe name and status. -/
structure ProbeResult where
  name : String
  status : HStatus
deriving DecidableEq

/-- An entry of the `asyncio.gather(..., return_exceptions=True)` result:
either a `DependencyHealthResult` or a raised exception rendered as a
string. -/
inductive ProbeOutcome
  | ok (r : ProbeResult)
  | exn (msg : String)
deriving DecidableEq

/-- ASCII lowering of a string (Python `str.lower` on the relevant ASCII
exception texts). -/
def pyLower (s : String) : String := ⟨s.data.map Char.toLower⟩

/-- Embeds `HealthChecker._check_redis_connectivity`: the placeholder
always reports `degraded` with a "Redis not yet implemented" error. -/
def check_redis_connectivity : ProbeResult := ⟨"redis", .degraded⟩

/-- One iteration of the result loop in `check_comprehensive`: exceptions
not mentioning gemini/stripe force `unhealthy`; an unhealthy `supabase` or
`database` probe forces `unhealthy`; otherwise any degraded probe downgrades
a healthy overall status to `degraded`. -/
def comprehensiveStep (overall : HStatus) (r : ProbeOutcome) : HStatus :=
  match r with
  | .exn msg =>
    if !containsSub "gemini".data (pyLower msg).data &&
        !containsSub "stripe".data (pyLower msg).data then
      .unhealthy
    else overall
  | .ok res =>
    if (res.name = "supabase" ∨ res.name = "database") ∧ res.status = .unhealthy then
      .unhealthy
    else if res.status = .degraded ∧ overall = .healthy then
      .degraded
    else overall

/-- Embeds the overall-status computation of
`HealthChecker.check_comprehensive` over the gathered probe outcomes. -/
def check_comprehensive_overall (results : List ProbeOutcome) : HStatus :=
  results.foldl comprehensiveStep .healthy

/-! ## Current-user resolution (`app/auth/dependencies.py`) -/

/-- The claims of a decoded JWT payload used by `get_current_user`. -/
structure JWTPayload where
  sub : Option String
  email : Option String
  role : Option String
  aud : Option String
  iss : Option String
  iat : Option Int
  exp : Option Int
deriving DecidableEq

/-- A presented bearer token: its payload together with whether its HS256
signature verifies against the configured secret. -/
structure BearerToken where
  payload : JWTPayload
  signature_valid : Bool
deriving DecidableEq

/-- Result of `jose.jwt.decode`. -/
inductive JoseDecodeResult
  | payload (p : JWTPayload)
  | jwtError
deriving DecidableEq

/-- Models `jose.jwt.decode(..., algorithms=["HS256"],
audience="authenticated", options={verify_signature, verify_aud,
verify_iat, verify_exp, require_aud, require_exp})` per the library's
documented semantics: an invalid signature, a missing or mismatching
audience, a missing `exp`, or `exp < now` (no leeway) raise `JWTError`;
`verify_iat` only type-checks `iat` and is not modelled further. -/
def joseDecode (t : BearerToken) (now : Int) : JoseDecodeResult :=
  if t.signature_valid = false then .jwtError
  else
    match t.payload.aud with
    | none => .jwtError
    | some a =>
      if a ≠ "authenticated" then .jwtError
      else
        match t.payload.exp with
        | none => .jwtError
        | some e => if e < now then .jwtError else .payload t.payload

/-- The user context dictionary returned by `get_current_user`. -/
structure UserContext where
  user_id : String
  email : Option String
  role : String
  aud : Option String
  iss : Option String
  iat : Option Int
  exp : Option Int
deriving DecidableEq

/-- Outcome of the dependency: a user context or an `HTTPException` with a
status code and detail. -/
inductive AuthOutcome
  | ok (ctx : UserContext)
  | httpError (statusCode : Nat) (detail : String)
deriving DecidableEq

/-- Status code projection of an `AuthOutcome` (200 for a context). -/
def AuthOutcome.statusCode : AuthOutcome → Nat
  | .ok _ => 200
  | .httpError s _ => s

/-- Embeds `get_current_user`.  The function's `try` block has handlers
only for `JWTError` and the blanket `Exception`; `HTTPException`s raised
inside the block (the 500 configuration error and the 401 missing-user-ID
error) are therefore caught by the blanket handler and re-raised as
500 "Authentication processing error".  Python's `if not user_id` treats
both a missing and an empty `sub` as falsy. -/
def get_current_user (credentials : Option BearerToken)
    (secret_configured : Bool) (now : Int) : AuthOutcome :=
  match credentials with
  | none => .httpError 401 "Bearer authentication required"
  | some t =>
    if secret_configured = false then
      .httpError 500 "Authentication processing error"
    else
      match joseDecode t now with
      | .jwtError => .httpError 401 "Invalid authentication token"
      | .payload p =>
        match p.sub with
        | none => .httpError 500 "Authentication processing error"
        | some uid =>
          if uid = "" then .httpError 500 "Authentication processing error"
          else .ok ⟨uid, p.email, p.role.getD "authenticated", p.aud, p.iss, p.iat, p.exp⟩

/-- A token whose only defect is a missing `exp` claim. -/
def tokenMissingExp : BearerToken :=
  ⟨⟨some "user-123", some "u@example.com", some "authenticated",
    some "authenticated", some "iss", some 0, none⟩, true⟩

/-- A token that expired at time 10 (checked at time 100). -/
def tokenExpired : BearerToken :=
  ⟨⟨some "user-123", some "u@example.com", some "authenticated",
    some "authenticated", some "iss", some 0, some 10⟩, true⟩

/-- A token whose audience is not `authenticated`. -/
def tokenBadAud : BearerToken :=
  ⟨⟨some "user-123", some "u@example.com", some "authenticated",
    some "other-audience", some "iss", some 0, some 200⟩, true⟩

/-- A well-formed token: valid signature, matching audience, present
subject, future expiry. -/
def tokenGood : BearerToken :=
  ⟨⟨some "user-123", some "u@example.com", some "authenticated",
    some "authenticated", some "iss", some 0, some 200⟩, true⟩

/-- A token that is well-formed except that it lacks a `sub` claim. -/
def tokenMissingSub : BearerToken :=
  ⟨⟨none, some "u@example.com", some "authenticated",
    some "authenticated", some "iss", some 0, some 200⟩, true⟩

/-! ## Case model and repository (`app/models/case.py`,
`app/repositories/case.py`, `app/repositories/base.py`).  A case row keeps
the columns the verified operations read; JSON metadata is an association
list with first-match lookup; UUIDs and timestamps are naturals. -/

structure CaseRec where
  id : Nat
  user_id : Nat
  partner_type : Option String
  case_metadata : List (String × Int)
  deleted_at : Option Nat
  updated_at : Nat
deriving DecidableEq

/-- Dict lookup: value of the first entry with the given key. -/
def dictLookup (d : List (String × Int)) (k : String) : Option Int :=
  (d.find? (fun p => decide (p.1 = k))).map (fun p => p.2)

/-- Models Python `dict(old); .update(upd)` at lookup level: keys of `upd`
take `upd`'s values, all other keys keep `old`'s values (first-match lookup
makes `upd ++ old` that merged dict). -/
def pyDictUpdate (old upd : List (String × Int)) : List (String × Int) :=
  upd ++ old

/-- Embeds `BaseRepository.get_by_id`: the unique row with the id, if any. -/
def get_by_id (db : List CaseRec) (i : Nat) : Option CaseRec :=
  db.find? (fun c => decide (c.id = i))

/-- Embeds `CaseRepository.update_metadata`: fetch the case; if absent
return the store unchanged with no result; otherwise merge the incoming
metadata over the existing one (Python `if case.case_metadata:` treats an
empty dict as falsy and assigns the incoming dict directly), stamp
`updated_at`, and return the updated case. -/
def update_metadata (db : List CaseRec) (i : Nat)
    (metadata : List (String × Int)) (now : Nat) :
    List CaseRec × Option CaseRec :=
  match get_by_id db i with
  | none => (db, none)
  | some c =>
    let new_metadata :=
      if c.case_metadata.isEmpty then metadata
      else pyDictUpdate c.case_metadata metadata
    let c2 := { c with case_metadata := new_metadata, updated_at := now }
    (db.map (fun x => if x.id = i then c2 else x), some c2)

/-- Embeds `CaseRepository.bulk_update_metadata`: one UPDATE setting
`case_metadata` to exactly the given dict (replace, not merge) and
`updated_at` to now on every row whose id is in the list, returning the
affected row count; an empty id list short-circuits to 0. -/
def bulk_update_metadata (db : List CaseRec) (case_ids : List Nat)
    (metadata : List (String × Int)) (now : Nat) : List CaseRec × Nat :=
  if case_ids.isEmpty then (db, 0)
  else
    (db.map (fun c =>
       if c.id ∈ case_ids then { c with case_metadata := metadata, updated_at := now }
       else c),
     (db.filter (fun c => decide (c.id ∈ case_ids))).length)

/-- Embeds `Case.soft_delete`: set `deleted_at` only when it is unset. -/
def Case.soft_delete (c : CaseRec) (now : Nat) : CaseRec :=
  if c.deleted_at = none then { c with deleted_at := some now } else c

/-- Embeds `Case.restore`: clear `deleted_at` unconditionally. -/
def Case.restore (c : CaseRec) : CaseRec :=
  { c with deleted_at := none }

/-- Embeds the `Case.is_deleted` property. -/
def Case.is_deleted (c : CaseRec) : Bool :=
  c.deleted_at.isSome

/-- Embeds `CaseRepository.soft_delete`: fetch, apply `Case.soft_delete`
to the row, report whether the id existed. -/
def soft_delete (db : List CaseRec) (i : Nat) (now : Nat) : List CaseRec × Bool :=
  match get_by_id db i with
  | none => (db, false)
  | some _ => (db.map (fun x => if x.id = i then Case.soft_delete x now else x), true)

/-- Embeds `CaseRepository.restore`: fetch, apply `Case.restore` to the
row, report whether the id existed. -/
def restore (db : List CaseRec) (i : Nat) : List CaseRec × Bool :=
  match get_by_id db i with
  | none => (db, false)
  | some _ => (db.map (fun x => if x.id = i then Case.restore x else x), true)

/-- Insertion step of the `ORDER BY updated_at DESC` sort. -/
def insertDesc (c : CaseRec) : List CaseRec → List CaseRec
  | [] => [c]
  | x :: xs => if x.updated_at ≤ c.updated_at then c :: x :: xs else x :: insertDesc c xs

/-- Sort by `updated_at` descending (insertion sort). -/
def sortByUpdatedDesc (l : List CaseRec) : List CaseRec :=
  l.foldr insertDesc []

/-- Embeds `CaseRepository.get_user_cases`: rows of the user, excluding
soft-deleted rows unless `include_deleted`, optionally filtered by partner
type, ordered by `updated_at` descending, with OFFSET/LIMIT pagination. -/
def get_user_cases (db : List CaseRec) (uid : Nat) (lim offset : Nat)
    (partner_type : Option String) (include_deleted : Bool) : List CaseRec :=
  let s := db.filter (fun c => decide (c.user_id = uid))
  let s := if include_deleted then s else s.filter (fun c => c.deleted_at.isNone)
  let s :=
    match partner_type with
    | none => s
    | some pt => s.filter (fun c => decide (c.partner_type = some pt))
  ((sortByUpdatedDesc s).drop offset).take lim

/-- A store with a single case owned by user 7, metadata `a ↦ 1`. -/
def caseA : CaseRec := ⟨1, 7, none, [("a", 1)], none, 0⟩

/-- The single-case store used by witnesses. -/
def dbA : List CaseRec := [caseA]

/-- An active case of user 7. -/
def caseActive : CaseRec := ⟨1, 7, none, [], none, 0⟩

/-- A soft-deleted case of user 7 (deleted at time 3). -/
def caseDeleted : CaseRec := ⟨2, 7, none, [], some 3, 0⟩

/-- A store with one active and one soft-deleted case. -/
def dbB : List CaseRec := [caseActive, caseDeleted]

/-! ## Rate limiting middleware (`app/middleware/auth.py`,
`RateLimitMiddleware.dispatch`).  The in-memory store maps a client key to
its request timestamps; time is in integer seconds. -/

/-- The in-memory request store `self.requests`. -/
abbrev RLState := List (String × List Int)

/-- Dict lookup in the request store. -/
def rlFind (st : RLState) (ip : String) : Option (List Int) :=
  (st.find? (fun p => decide (p.1 = ip))).map (fun p => p.2)

/-- Dict assignment `self.requests[ip] = ts`: update in place if present,
append otherwise. -/
def rlSet (st : RLState) (ip : String) (ts : List Int) : RLState :=
  if (st.find? (fun p => decide (p.1 = ip))).isSome then
    st.map (fun p => if p.1 = ip then (ip, ts) else p)
  else st ++ [(ip, ts)]

/-- Result of one pass through the rate limiter. -/
inductive RLResult
  | limited (statusCode : Nat) (retryAfter : Nat) (error : String)
  | passed (remaining total : Nat)
deriving DecidableEq

/-- Embeds `RateLimitMiddleware.dispatch` for one request: possibly purge
stale clients (once a minute), ensure the client's entry, prune its
timestamps to the last 60 seconds, reject with 429/`Retry-After: 60` when
the pruned count reaches the limit, otherwise record the request, annotate
remaining/total, and apply the per-endpoint limit when one differs from
the default.  `endpointLimit` is the value `_get_endpoint_rate_limit`
resolves for the request path (0 models a falsy `None`). -/
def dispatch (st : RLState) (ip : String) (now : Int)
    (limit : Nat) (endpointLimit : Nat) : RLResult × RLState :=
  let st1 :=
    if now % 60 < 1 then
      st.filter (fun p => p.2.any (fun t => decide (now - 60 < t)))
    else st
  let st2 := if (rlFind st1 ip).isSome then st1 else rlSet st1 ip []
  let pruned := ((rlFind st2 ip).getD []).filter (fun t => decide (now - t < 60))
  let st3 := rlSet st2 ip pruned
  if limit ≤ pruned.length then
    (.limited 429 60 "Rate limit exceeded", st3)
  else
    let appended := pruned ++ [now]
    let st4 := rlSet st3 ip appended
    if endpointLimit ≠ 0 ∧ endpointLimit ≠ limit ∧ endpointLimit ≤ appended.length then
      (.limited 429 60 "Endpoint rate limit exceeded", st4)
    else
      (.passed (limit - appended.length) limit, st4)

/-- Processes a sequence of requests (client, arrival time) through the
middleware, returning the final store and the per-request results. -/
def runSeq (st : RLState) (reqs : List (String × Int))
    (limit endpointLimit : Nat) : RLState × List RLResult :=
  match reqs with
  | [] => (st, [])
  | r :: rest =>
    let d := dispatch st r.1 r.2 limit endpointLimit
    let k := runSeq d.2 rest limit endpointLimit
    (k.1, d.1 :: k.2)

end ReplyPass

namespace ReplyPass

/-! ## Lemmas and theorems -/

theorem keepChar_eq_specFilter (c : Char) :
    keepChar c =
      (decide (c.toNat = 10) || decide (c.toNat = 9) || !(isAsciiControl c)) := by
  have h : isAsciiControl c = decide (c.toNat < 32 ∨ c.toNat = 127) := by
    by_cases h1 : c.toNat < 32 <;> by_cases h2 : c.toNat = 127 <;>
      simp [isAsciiControl, h1, h2]
  rw [h, Bool.eq_iff_iff]
  simp only [keepChar, Bool.or_eq_true, Bool.and_eq_true, Bool.not_eq_true',
    decide_eq_true_eq, decide_eq_false_iff_not]
  omega

theorem replaceChar_append (pat : Char) (rep : List Char) (a b : List Char) :
    replaceChar pat rep (a ++ b) = replaceChar pat rep a ++ replaceChar pat rep b := by
  induction a with
  | nil => simp [replaceChar]
  | cons c cs ih => simp [replaceChar, ih]

/-- The composed sequential replacements of the escape table, applied to a
single character, coincide with the claim-side single-pass escape. -/
theorem escape_chain_single (c : Char) :
    replaceChar (Char.ofNat 60) "&lt;".data
      (replaceChar (Char.ofNat 62) "&gt;".data
        (replaceChar aposChar "&#x27;".data
          (replaceChar quoteChar "&quot;".data
            (replaceChar (Char.ofNat 38) "&amp;".data [c])))) = escapeCharSpec c := by
  by_cases h1 : c = Char.ofNat 38
  · subst h1; decide
  by_cases h2 : c = quoteChar
  · subst h2; decide
  by_cases h3 : c = aposChar
  · subst h3; decide
  by_cases h4 : c = Char.ofNat 62
  · subst h4; decide
  by_cases h5 : c = Char.ofNat 60
  · subst h5; decide
  simp [replaceChar, escapeCharSpec, h1, h2, h3, h4, h5]

theorem escape_chain_eq_spec (s : List Char) :
    replaceChar (Char.ofNat 60) "&lt;".data
      (replaceChar (Char.ofNat 62) "&gt;".data
        (replaceChar aposChar "&#x27;".data
          (replaceChar quoteChar "&quot;".data
            (replaceChar (Char.ofNat 38) "&amp;".data s)))) = htmlEscapeSpec s := by
  induction s with
  | nil => simp [replaceChar, htmlEscapeSpec]
  | cons c cs ih =>
    have hc : (c :: cs) = [c] ++ cs := rfl
    rw [hc]
    simp only [replaceChar_append]
    rw [ih, escape_chain_single]
    rfl

/-- C9: for every input string and `max_length`, `sanitize_input` performs
exactly the claimed steps in order: removes all null bytes, truncates to
`max_length` characters, removes every control character except newline and
tab, HTML-entity-escapes `&`, double quote, apostrophe, `>`, `<` to
`&amp;`, `&quot;`, `&#x27;`, `&gt;`, `&lt;`, and finally trims surrounding
whitespace. -/
theorem sanitize_input_steps_equiv (text : List Char) (max_length : Nat) :
    sanitize_input text max_length = sanitizeInputSpec text max_length := by
  simp only [sanitize_input, sanitizeInputSpec, htmlEscapeTable, List.foldl]
  rw [List.filter_congr (fun c _ => keepChar_eq_specFilter c)]
  exact congrArg pyStrip (escape_chain_eq_spec _)

/-- C10: for `visible_chars ≥ 1`, `mask_sensitive_data` preserves length;
short inputs are masked entirely, longer inputs keep the first and last
`visible_chars` characters in place with asterisks in between. -/
theorem mask_sensitive_data_shape (s : List Char) (v : Nat) (hv : 1 ≤ v) :
    (mask_sensitive_data s v).length = s.length ∧
    (s.length ≤ 2 * v → mask_sensitive_data s v = List.replicate s.length asterisk) ∧
    (2 * v < s.length →
      mask_sensitive_data s v =
        s.take v ++ List.replicate (s.length - 2 * v) asterisk ++ s.drop (s.length - v)) := by
  have hv0 : v ≠ 0 := by omega
  refine ⟨?_, ?_, ?_⟩
  · by_cases h : s.length ≤ v * 2
    · simp [mask_sensitive_data, h]
    · have h2 : ¬ s.length ≤ v * 2 := h
      simp only [mask_sensitive_data, if_neg h2, pySliceLast, if_neg hv0,
        List.length_append, List.length_take, List.length_replicate, List.length_drop]
      omega
  · intro h
    have h2 : s.length ≤ v * 2 := by omega
    simp [mask_sensitive_data, h2]
  · intro h
    have h2 : ¬ s.length ≤ v * 2 := by omega
    have h3 : s.length - v * 2 = s.length - 2 * v := by omega
    simp only [mask_sensitive_data, if_neg h2, pySliceLast, if_neg hv0, h3]

/-- C10 witness: the theorem evaluated at the ten-character input
`secretdata` with two visible characters. -/
theorem mask_sensitive_data_shape_witness :
    (mask_sensitive_data "secretdata".data 2).length = ("secretdata".data).length ∧
    (("secretdata".data).length ≤ 2 * 2 →
      mask_sensitive_data "secretdata".data 2 =
        List.replicate ("secretdata".data).length asterisk) ∧
    (2 * 2 < ("secretdata".data).length →
      mask_sensitive_data "secretdata".data 2 =
        ("secretdata".data).take 2 ++
          List.replicate (("secretdata".data).length - 2 * 2) asterisk ++
          ("secretdata".data).drop (("secretdata".data).length - 2)) :=
  mask_sensitive_data_shape "secretdata".data 2 (by decide)

/-- C7: the password-reset endpoint returns the identical 200 response with
the same generic message for every provider outcome — success, failure, or
any exception text — so the client cannot distinguish existing from
non-existing accounts or failed sends. -/
theorem password_reset_anti_enumeration (email : String)
    (r1 r2 : Except String Unit) :
    request_password_reset email r1 = request_password_reset email r2 ∧
    (request_password_reset email r1).status = 200 ∧
    (request_password_reset email r1).message = passwordResetGenericMessage := by
  cases r1 <;> cases r2 <;> exact ⟨rfl, rfl, rfl⟩

/-- C8: the per-table RLS security score equals the claimed capped sum
`min(100, 30·[RLS] + 20·[≥1 policy] + 25·[isolation requirement satisfied]
+ 15·[service role] + 5·[≥2 policies] + 5·[≥3 policies])`; a table with RLS
enabled, one `auth.uid()` isolation policy and one service-role policy
scores at least 90, and a table with RLS disabled, no policies, and a
declared isolation requirement scores exactly 0. -/
theorem rls_security_score_formula :
    (∀ (rls : Bool) (pols : List RLSPolicy) (ui sr req : Bool),
      calculate_security_score rls pols ui sr req = securityScoreSpec rls pols ui sr req) ∧
    90 ≤ calculate_security_score true [isoPolicy, servicePolicy]
      (check_user_isolation [isoPolicy, servicePolicy])
      (check_service_role_access [isoPolicy, servicePolicy]) true ∧
    calculate_security_score false [] (check_user_isolation [])
      (check_service_role_access []) true = 0 := by
  refine ⟨?_, by decide, by decide⟩
  intro rls pols ui sr req
  cases rls <;> cases ui <;> cases sr <;> cases req <;>
    cases pols with
    | nil => decide
    | cons p ps =>
      simp only [calculate_security_score, securityScoreSpec, List.isEmpty_cons,
        List.length_cons, Bool.false_eq_true, if_false, if_true, Bool.not_false,
        Bool.not_true, Bool.false_or, Bool.true_or, Bool.or_false, Bool.or_true]
      split_ifs <;> omega

/-- C5 counterexample: two distinct passwords for which registration
validation fails, but with the minimum-length error rather than
"Passwords do not match" — the model validator never runs when the
password field validator has already failed. -/
theorem passwords_match_counterexample :
    ("a" : String) ≠ "b" ∧
    validateRegistrationPasswords "a" "b" =
      .error "Password must be at least 8 characters long" ∧
    validateRegistrationPasswords "a" "b" ≠ .error "Passwords do not match" := by
  refine ⟨by decide, by decide, by decide⟩

/-- C5 (amended): a password that is too short or too long or lacks an
uppercase letter, lowercase letter, digit, or special character is rejected
by the password strength validator (and hence registration validation
fails with that password-related error); `ValidPassword123!` passes the
strength check; and for two distinct passwords whose first component is
strength-valid, validation fails with "Passwords do not match". -/
theorem password_validation_amended :
    (∀ p c : String,
      (p.length < 8 ∨ 128 < p.length ∨ hasUpper p = false ∨ hasLower p = false ∨
        hasDigit p = false ∨ hasSpecial p = false) →
      ∃ e, validate_password_strength p = .error e ∧
        validateRegistrationPasswords p c = .error e) ∧
    validate_password_strength "ValidPassword123!" = .ok "ValidPassword123!" ∧
    (∀ p c : String, validate_password_strength p = .ok p → p ≠ c →
      validateRegistrationPasswords p c = .error "Passwords do not match") := by
  refine ⟨?_, by decide, ?_⟩
  · intro p c h
    unfold validate_password_strength validateRegistrationPasswords
    unfold validate_password_strength
    split_ifs with h1 h2 h3 h4 h5 h6
    · exact ⟨_, rfl, rfl⟩
    · exact ⟨_, rfl, rfl⟩
    · exact ⟨_, rfl, rfl⟩
    · exact ⟨_, rfl, rfl⟩
    · exact ⟨_, rfl, rfl⟩
    · exact ⟨_, rfl, rfl⟩
    · exfalso
      simp only [Bool.not_eq_true'] at h3 h4 h5 h6
      rcases h with h | h | h | h | h | h
      · exact h1 h
      · exact h2 h
      · simp [h] at h3
      · simp [h] at h4
      · simp [h] at h5
      · simp [h] at h6
  · intro p c hp hne
    unfold validateRegistrationPasswords
    rw [hp]
    simp [passwords_match, hne]

/-- C5 witness: the amended theorem applied at concrete inputs — a weak
password is rejected with a password-related error, and a strength-valid
but mismatched pair is rejected with "Passwords do not match". -/
theorem password_validation_amended_witness :
    (∃ e, validate_password_strength "weak" = .error e ∧
      validateRegistrationPasswords "weak" "weak" = .error e) ∧
    validateRegistrationPasswords "Password1!" "Password2!" =
      .error "Passwords do not match" :=
  ⟨password_validation_amended.1 "weak" "weak" (Or.inl (by decide)),
   password_validation_amended.2.2 "Password1!" "Password2!" (by decide) (by decide)⟩

/-- C3: with both critical probes healthy, a degraded informational probe
(the generative-AI probe here, and the cache placeholder, which always
reports degraded) downgrades the comprehensive overall status to
`degraded`, contradicting the claim (and the code's own comments) that only
the identity/database probes affect overall status; an *unhealthy*
informational probe, by contrast, is correctly ignored. -/
theorem comprehensive_overall_degraded_by_informational_probe :
    check_comprehensive_overall
      [.ok ⟨"supabase", .healthy⟩, .ok ⟨"database", .healthy⟩,
       .ok ⟨"gemini_api", .degraded⟩, .ok ⟨"stripe_api", .healthy⟩,
       .ok check_redis_connectivity] = .degraded ∧
    check_comprehensive_overall
      [.ok ⟨"supabase", .healthy⟩, .ok ⟨"database", .healthy⟩,
       .ok ⟨"gemini_api", .healthy⟩, .ok ⟨"stripe_api", .healthy⟩,
       .ok check_redis_connectivity] = .degraded ∧
    check_comprehensive_overall
      [.ok ⟨"supabase", .healthy⟩, .ok ⟨"database", .healthy⟩,
       .ok ⟨"gemini_api", .unhealthy⟩, .ok ⟨"stripe_api", .unhealthy⟩] = .healthy ∧
    (HStatus.degraded ≠ HStatus.healthy) := by
  refine ⟨by decide, by decide, by decide, by decide⟩

theorem dictLookup_append (a b : List (String × Int)) (k : String) :
    dictLookup (a ++ b) k =
      match dictLookup a k with
      | some v => some v
      | none => dictLookup b k := by
  induction a with
  | nil => simp [dictLookup]
  | cons p ps ih =>
    by_cases h : p.1 = k
    · simp [dictLookup, List.find?_cons, h]
    · simp only [dictLookup, List.cons_append, List.find?_cons, decide_eq_true_eq] at ih ⊢
      simp only [h, decide_False]
      exact ih

theorem get_by_id_map_replace (db : List CaseRec) (i : Nat) (f : CaseRec → CaseRec)
    (hf : ∀ c, c.id = i → (f c).id = i) :
    get_by_id (db.map (fun x => if x.id = i then f x else x)) i =
      (get_by_id db i).map f := by
  induction db with
  | nil => rfl
  | cons x xs ih =>
    unfold get_by_id at ih ⊢
    by_cases h : x.id = i
    · have h2 : (f x).id = i := hf x h
      simp [List.find?_cons, h, h2]
    · simp [List.find?_cons, h, ih]

theorem get_by_id_map_const (db : List CaseRec) (i : Nat) (r : CaseRec)
    (hr : r.id = i) :
    get_by_id (db.map (fun x => if x.id = i then r else x)) i =
      (get_by_id db i).map (fun _ => r) := by
  induction db with
  | nil => rfl
  | cons x xs ih =>
    unfold get_by_id at ih ⊢
    by_cases h : x.id = i
    · simp [List.find?_cons, h, hr]
    · simp [List.find?_cons, h, ih]

theorem get_by_id_id_eq (db : List CaseRec) (i : Nat) (c : CaseRec)
    (hc : get_by_id db i = some c) : c.id = i := by
  have := List.find?_some hc
  simpa using this

theorem restore_of_active (c : CaseRec) (h : c.deleted_at = none) :
    Case.restore c = c := by
  unfold Case.restore
  cases c
  dsimp only at h
  subst h
  rfl

/-- C2: `update_metadata` merges the incoming metadata over the existing
one (keys of the incoming dict win, all other existing keys survive),
stamps `updated_at`, and returns the updated case — or no case when the id
does not exist; `bulk_update_metadata` on that single id replaces the
metadata with exactly the incoming dict, stamps `updated_at`, and returns
the number of rows whose id is in the given list. -/
theorem metadata_update_merge_vs_bulk_replace (db : List CaseRec) (i : Nat)
    (m : List (String × Int)) (now : Nat) :
    (get_by_id db i = none → update_metadata db i m now = (db, none)) ∧
    (∀ c, get_by_id db i = some c →
      ∃ c2, (update_metadata db i m now).2 = some c2 ∧
        get_by_id (update_metadata db i m now).1 i = some c2 ∧
        c2.updated_at = now ∧
        (∀ k, dictLookup c2.case_metadata k =
          match dictLookup m k with
          | some v => some v
          | none => dictLookup c.case_metadata k)) ∧
    (∀ c, get_by_id db i = some c →
      ∃ c2, get_by_id (bulk_update_metadata db [i] m now).1 i = some c2 ∧
        c2.case_metadata = m ∧ c2.updated_at = now) ∧
    (∀ ids, (bulk_update_metadata db ids m now).2 =
      (db.filter (fun c => decide (c.id ∈ ids))).length) := by
  refine ⟨?_, ?_, ?_, ?_⟩
  · intro h
    simp [update_metadata, h]
  · intro c hc
    have hid : c.id = i := get_by_id_id_eq db i c hc
    simp only [update_metadata, hc]
    set nm := if c.case_metadata.isEmpty then m else pyDictUpdate c.case_metadata m with hnm
    refine ⟨_, rfl, ?_, rfl, ?_⟩
    · rw [get_by_id_map_const db i { c with case_metadata := nm, updated_at := now } hid, hc]
      rfl
    · intro k
      rcases hemp : c.case_metadata.isEmpty with _ | _
      · have : nm = pyDictUpdate c.case_metadata m := by rw [hnm, if_neg (by simp [hemp])]
        rw [this, pyDictUpdate, dictLookup_append]
      · have hce : c.case_metadata = [] := by
          cases hcm : c.case_metadata with
          | nil => rfl
          | cons a l => rw [hcm] at hemp; simp at hemp
        have : nm = m := by rw [hnm, if_pos (by simp [hemp])]
        rw [this, hce]
        cases dictLookup m k <;> simp [dictLookup]
  · intro c hc
    have hid : c.id = i := get_by_id_id_eq db i c hc
    simp only [bulk_update_metadata, List.isEmpty_cons, Bool.false_eq_true, if_false]
    have hrw : (fun x : CaseRec => if x.id ∈ [i] then
        { x with case_metadata := m, updated_at := now } else x) =
        (fun x : CaseRec => if x.id = i then
          { x with case_metadata := m, updated_at := now } else x) := by
      funext x
      simp [List.mem_singleton]
    rw [hrw, get_by_id_map_replace db i
      (fun x => { x with case_metadata := m, updated_at := now }) (fun x hx => hx), hc]
    exact ⟨_, rfl, rfl, rfl⟩
  · intro ids
    cases ids with
    | nil => simp [bulk_update_metadata]
    | cons a l => simp [bulk_update_metadata]

/-- C2 witness: the theorem applied to a one-case store holding metadata
`a ↦ 1`, merging `b ↦ 2` and bulk-replacing with `b ↦ 2`. -/
theorem metadata_update_merge_vs_bulk_replace_witness :
    (∃ c2, (update_metadata dbA 1 [("b", 2)] 5).2 = some c2 ∧
      get_by_id (update_metadata dbA 1 [("b", 2)] 5).1 1 = some c2 ∧
      c2.updated_at = 5 ∧
      (∀ k, dictLookup c2.case_metadata k =
        match dictLookup [("b", 2)] k with
        | some v => some v
        | none => dictLookup caseA.case_metadata k)) ∧
    (∃ c2, get_by_id (bulk_update_metadata dbA [1] [("b", 2)] 5).1 1 = some c2 ∧
      c2.case_metadata = [("b", 2)] ∧ c2.updated_at = 5) :=
  ⟨(metadata_update_merge_vs_bulk_replace dbA 1 [("b", 2)] 5).2.1 caseA (by decide),
   (metadata_update_merge_vs_bulk_replace dbA 1 [("b", 2)] 5).2.2.1 caseA (by decide)⟩

theorem mem_insertDesc (x c : CaseRec) (l : List CaseRec) :
    x ∈ insertDesc c l ↔ x = c ∨ x ∈ l := by
  induction l with
  | nil => simp [insertDesc]
  | cons y ys ih =>
    by_cases h : y.updated_at ≤ c.updated_at
    · simp [insertDesc, h]
    · simp only [insertDesc, if_neg h, List.mem_cons, ih]
      tauto

theorem mem_sortByUpdatedDesc (x : CaseRec) (l : List CaseRec) :
    x ∈ sortByUpdatedDesc l ↔ x ∈ l := by
  induction l with
  | nil => simp [sortByUpdatedDesc]
  | cons y ys ih =>
    simp only [sortByUpdatedDesc, List.foldr_cons] at ih ⊢
    rw [mem_insertDesc]
    simp [ih]

theorem length_insertDesc (c : CaseRec) (l : List CaseRec) :
    (insertDesc c l).length = l.length + 1 := by
  induction l with
  | nil => rfl
  | cons y ys ih =>
    by_cases h : y.updated_at ≤ c.updated_at
    · simp [insertDesc, h]
    · simp [insertDesc, h, ih]

theorem length_sortByUpdatedDesc (l : List CaseRec) :
    (sortByUpdatedDesc l).length = l.length := by
  induction l with
  | nil => rfl
  | cons y ys ih =>
    simp only [sortByUpdatedDesc, List.foldr_cons] at ih ⊢
    rw [length_insertDesc, ih, List.length_cons]

/-- C4: a first soft-delete on an active case sets `deleted_at` to now and
makes `is_deleted` true; a second soft-delete leaves the stored value
unchanged (idempotence); `restore` clears `deleted_at` unconditionally and
is the identity on an already-active case; a default listing contains no
soft-deleted case, while `include_deleted = true` lists every case of the
user (the soft-deleted ones included) when the page is large enough. -/
theorem soft_delete_restore_idempotence (db : List CaseRec) (i now : Nat)
    (c : CaseRec) (hc : get_by_id db i = some c) :
    (c.deleted_at = none →
      (soft_delete db i now).2 = true ∧
      get_by_id (soft_delete db i now).1 i = some { c with deleted_at := some now } ∧
      Case.is_deleted { c with deleted_at := some now } = true) ∧
    (c.deleted_at ≠ none →
      get_by_id (soft_delete db i now).1 i = some c) ∧
    (get_by_id (restore db i).1 i = some (Case.restore c) ∧
      (Case.restore c).deleted_at = none ∧
      (c.deleted_at = none → Case.restore c = c)) ∧
    (∀ u lim off pt x, x ∈ get_user_cases db u lim off pt false →
      x.deleted_at = none) ∧
    (∀ lim, db.length ≤ lim →
      c ∈ get_user_cases db c.user_id lim 0 none true) := by
  have hsd_id : ∀ x : CaseRec, x.id = i → (Case.soft_delete x now).id = i := by
    intro x hx
    unfold Case.soft_delete
    split <;> simpa using hx
  refine ⟨?_, ?_, ?_, ?_, ?_⟩
  · intro h
    refine ⟨by simp [soft_delete, hc], ?_, by simp [Case.is_deleted]⟩
    simp only [soft_delete, hc]
    rw [get_by_id_map_replace db i (fun x => Case.soft_delete x now) hsd_id, hc]
    simp [Case.soft_delete, h]
  · intro h
    simp only [soft_delete, hc]
    rw [get_by_id_map_replace db i (fun x => Case.soft_delete x now) hsd_id, hc]
    simp [Case.soft_delete, h]
  · refine ⟨?_, rfl, fun h => restore_of_active c h⟩
    simp only [restore, hc]
    rw [get_by_id_map_replace db i Case.restore (fun x hx => hx), hc]
    rfl
  · intro u lim off pt x hx
    unfold get_user_cases at hx
    have hx1 := List.mem_of_mem_take hx
    have hx2 := List.mem_of_mem_drop hx1
    rw [mem_sortByUpdatedDesc] at hx2
    have hx3 : x ∈ (db.filter (fun c => decide (c.user_id = u))).filter
        (fun c => c.deleted_at.isNone) := by
      cases pt with
      | none => exact hx2
      | some p => exact (List.mem_filter.mp hx2).1
    have := (List.mem_filter.mp hx3).2
    simpa [Option.isNone_iff_eq_none] using this
  · intro lim hlim
    have hmem : c ∈ db := List.mem_of_find?_eq_some hc
    unfold get_user_cases
    simp only [List.drop_zero]
    have hmem2 : c ∈ db.filter (fun x => decide (x.user_id = c.user_id)) :=
      List.mem_filter.mpr ⟨hmem, by simp⟩
    rw [List.take_of_length_le]
    · rw [mem_sortByUpdatedDesc]
      exact hmem2
    · rw [length_sortByUpdatedDesc]
      calc (db.filter (fun x => decide (x.user_id = c.user_id))).length
          ≤ db.length := List.length_filter_le _ _
        _ ≤ lim := hlim

/-- C4 witness: the theorem applied to a two-case store — the active case
is soft-deleted at time 5 and restored, and the already-deleted case is
listed under `include_deleted = true`. -/
theorem soft_delete_restore_idempotence_witness :
    ((soft_delete dbB 1 5).2 = true ∧
      get_by_id (soft_delete dbB 1 5).1 1 =
        some { caseActive with deleted_at := some 5 } ∧
      Case.is_deleted { caseActive with deleted_at := some 5 } = true) ∧
    get_by_id (soft_delete dbB 2 9).1 2 = some caseDeleted ∧
    get_by_id (restore dbB 2).1 2 = some (Case.restore caseDeleted) ∧
    caseDeleted ∈ get_user_cases dbB caseDeleted.user_id 10 0 none true :=
  ⟨(soft_delete_restore_idempotence dbB 1 5 caseActive (by decide)).1 (by decide),
   (soft_delete_restore_idempotence dbB 2 9 caseDeleted (by decide)).2.1 (by decide),
   (soft_delete_restore_idempotence dbB 2 9 caseDeleted (by decide)).2.2.1.1,
   (soft_delete_restore_idempotence dbB 2 9 caseDeleted (by decide)).2.2.2.2 10 (by decide)⟩

theorem rlFind_nil (ip : String) : rlFind [] ip = none := rfl

theorem rlFind_single (ip : String) (ts : List Int) : rlFind [(ip, ts)] ip = some ts := by
  simp [rlFind, List.find?_cons]

theorem rlSet_nil (ip : String) (ts : List Int) : rlSet [] ip ts = [(ip, ts)] := by
  simp [rlSet]

theorem rlSet_single (ip : String) (a ts : List Int) :
    rlSet [(ip, a)] ip ts = [(ip, ts)] := by
  simp [rlSet, List.find?_cons]

/-- A request that arrives under the limit is passed and appended to the
client's window; the state holds only that client's fresh timestamps. -/
theorem dispatch_accept (ip : String) (acc : List Int) (st : RLState)
    (hst : st = [(ip, acc)] ∨ (st = [] ∧ acc = []))
    (now t0 : Int) (hacc : ∀ a ∈ acc, now - 60 < a ∧ a ≤ now)
    (ht1 : now - 60 < t0) (ht2 : t0 ≤ now)
    (limit : Nat) (hlt : acc.length < limit) :
    dispatch st ip t0 limit limit =
      (.passed (limit - (acc.length + 1)) limit, [(ip, acc ++ [t0])]) := by
  have hprune : acc.filter (fun t => decide (t0 - t < 60)) = acc :=
    List.filter_eq_self.mpr (fun a ha => by
      have h := hacc a ha
      simp only [decide_eq_true_eq]
      omega)
  have h0 : ¬ limit ≤ acc.length := by omega
  rcases hst with hst | ⟨hst, hacc0⟩
  · subst hst
    by_cases hcl : t0 % 60 < 1
    · cases acc with
      | nil =>
        simp [dispatch, hcl, rlFind_nil, rlSet_nil, rlFind_single, rlSet_single,
          Nat.not_le.mpr (by omega : 0 < limit)]
      | cons a as =>
        have hany : ((a :: as).any fun t => decide (t0 - 60 < t)) = true := by
          have h := hacc a (by simp)
          simp only [List.any_cons, Bool.or_eq_true, decide_eq_true_eq]
          exact Or.inl (by omega)
        simp [dispatch, hcl, hany, rlFind_single, rlSet_single, hprune, h0]
        simp only [List.length_cons] at h0 hlt ⊢
        omega
    · simp [dispatch, hcl, rlFind_single, rlSet_single, hprune, h0]
  · subst hst
    subst hacc0
    simp [dispatch, rlFind_nil, rlSet_nil, rlFind_single, rlSet_single,
      Nat.not_le.mpr (by omega : 0 < limit)]

/-- A request from a client whose pruned window already holds `limit`
timestamps is rejected with 429 and `Retry-After: 60`, leaving the
window unchanged. -/
theorem dispatch_reject (ip : String) (acc : List Int)
    (now t0 : Int) (hacc : ∀ a ∈ acc, now - 60 < a ∧ a ≤ now)
    (ht1 : now - 60 < t0) (ht2 : t0 ≤ now)
    (limit : Nat) (hge : limit ≤ acc.length) (hne : acc ≠ []) :
    dispatch [(ip, acc)] ip t0 limit limit =
      (.limited 429 60 "Rate limit exceeded", [(ip, acc)]) := by
  have hprune : acc.filter (fun t => decide (t0 - t < 60)) = acc :=
    List.filter_eq_self.mpr (fun a ha => by
      have h := hacc a ha
      simp only [decide_eq_true_eq]
      omega)
  cases acc with
  | nil => exact absurd rfl hne
  | cons a as =>
    have hany : ((a :: as).any fun t => decide (t0 - 60 < t)) = true := by
      have h := hacc a (by simp)
      simp only [List.any_cons, Bool.or_eq_true, decide_eq_true_eq]
      exact Or.inl (by omega)
    by_cases hcl : t0 % 60 < 1
    · simp [dispatch, hcl, hany, rlFind_single, rlSet_single, hprune, hge]
      simp only [List.length_cons] at hge ⊢
      omega
    · simp [dispatch, hcl, rlFind_single, rlSet_single, hprune, hge]
      simp only [List.length_cons] at hge ⊢
      omega

/-- Running a batch of same-client requests whose times all lie in the
sliding window passes every request while the window stays under the
limit, accumulating the timestamps in order. -/
theorem runSeq_single_client (ip : String) (limit : Nat) (now : Int)
    (ts : List Int) : ∀ (acc : List Int) (st : RLState),
      (st = [(ip, acc)] ∨ (st = [] ∧ acc = [])) →
      (∀ a ∈ acc, now - 60 < a ∧ a ≤ now) →
      (∀ t ∈ ts, now - 60 < t ∧ t ≤ now) →
      acc.length + ts.length ≤ limit →
      ((runSeq st (ts.map (fun t => (ip, t))) limit limit).1 = [(ip, acc ++ ts)] ∨
        ((runSeq st (ts.map (fun t => (ip, t))) limit limit).1 = [] ∧ acc ++ ts = [])) ∧
      (∀ r ∈ (runSeq st (ts.map (fun t => (ip, t))) limit limit).2,
        ∃ rem, r = .passed rem limit) := by
  induction ts with
  | nil =>
    intro acc st hst hacc hts hlen
    constructor
    · simp only [List.map_nil, runSeq, List.append_nil]
      rcases hst with h | ⟨h1, h2⟩
      · exact Or.inl h
      · exact Or.inr ⟨h1, h2⟩
    · intro r hr
      simp [runSeq] at hr
  | cons t rest ih =>
    intro acc st hst hacc hts hlen
    have ht := hts t (by simp)
    have hstep := dispatch_accept ip acc st hst now t hacc ht.1 ht.2 limit
      (by simp only [List.length_cons] at hlen; omega)
    have hacc2 : ∀ a ∈ acc ++ [t], now - 60 < a ∧ a ≤ now := by
      intro a ha
      rcases List.mem_append.mp ha with h | h
      · exact hacc a h
      · rcases List.mem_singleton.mp h with rfl
        exact ht
    have hIH := ih (acc ++ [t]) [(ip, acc ++ [t])] (Or.inl rfl) hacc2
      (fun x hx => hts x (by simp [hx]))
      (by simp at hlen ⊢; omega)
    simp only [List.map_cons, runSeq, hstep]
    constructor
    · rcases hIH.1 with h | ⟨h1, h2⟩
      · rw [h]
        simp
      · exact absurd h2 (by simp)
    · intro r hr
      simp only [List.mem_cons] at hr
      rcases hr with rfl | hr
      · exact ⟨_, rfl⟩
      · exact hIH.2 r hr

/-- A request from a different client is admitted independently of the
first client's full window. -/
theorem dispatch_other_client (ip ip2 : String) (hne : ip2 ≠ ip)
    (ts : List Int) (now u2 : Int)
    (hfresh : ∀ x ∈ ts, now - 60 < x ∧ x ≤ now)
    (hu1 : now - 60 < u2) (hu2 : u2 ≤ now)
    (limit : Nat) (hlim : 1 ≤ limit) (hnil : ts ≠ []) :
    dispatch [(ip, ts)] ip2 u2 limit limit =
      (.passed (limit - 1) limit, [(ip, ts), (ip2, [u2])]) := by
  have hne2 : ip ≠ ip2 := fun h => hne h.symm
  cases ts with
  | nil => exact absurd rfl hnil
  | cons a as =>
    have hany : ((a :: as).any fun t => decide (u2 - 60 < t)) = true := by
      have h := hfresh a (by simp)
      simp only [List.any_cons, Bool.or_eq_true, decide_eq_true_eq]
      exact Or.inl (by omega)
    have h0 : ¬ limit ≤ ([] : List Int).length := by simp; omega
    by_cases hcl : u2 % 60 < 1
    · simp [dispatch, hcl, hany, rlFind, rlSet, List.find?_cons, hne2, h0]
      omega
    · simp [dispatch, hcl, rlFind, rlSet, List.find?_cons, hne2, h0]
      omega

/-- C6: starting from an empty store, `limit` requests from one client at
times inside the 60-second sliding window are all passed; the next request
from that client inside the window is rejected with 429 and
`Retry-After: 60`; and a request from a different client in the same
window is still passed. -/
theorem rate_limit_sliding_window (limit : Nat) (hlim : 1 ≤ limit)
    (ip ip2 : String) (hne : ip2 ≠ ip)
    (ts : List Int) (now : Int)
    (hts : ∀ t ∈ ts, now - 60 < t ∧ t ≤ now)
    (hlen : ts.length = limit)
    (u u2 : Int) (hu : now - 60 < u ∧ u ≤ now) (hv : now - 60 < u2 ∧ u2 ≤ now) :
    (∀ r ∈ (runSeq [] (ts.map (fun t => (ip, t))) limit limit).2,
      ∃ rem, r = .passed rem limit) ∧
    (dispatch (runSeq [] (ts.map (fun t => (ip, t))) limit limit).1
        ip u limit limit).1 = .limited 429 60 "Rate limit exceeded" ∧
    (dispatch (dispatch (runSeq [] (ts.map (fun t => (ip, t))) limit limit).1
        ip u limit limit).2 ip2 u2 limit limit).1 = .passed (limit - 1) limit := by
  have hrun := runSeq_single_client ip limit now ts [] [] (Or.inr ⟨rfl, rfl⟩)
    (by simp) hts (by simp [hlen])
  have htsne : ts ≠ [] := by
    intro h
    rw [h] at hlen
    simp at hlen
    omega
  have hstate : (runSeq [] (ts.map (fun t => (ip, t))) limit limit).1 = [(ip, ts)] := by
    rcases hrun.1 with h | ⟨h1, h2⟩
    · simpa using h
    · exact absurd (by simpa using h2) htsne
  refine ⟨hrun.2, ?_, ?_⟩
  · rw [hstate, dispatch_reject ip ts now u hts hu.1 hu.2 limit (by omega) htsne]
  · rw [hstate, dispatch_reject ip ts now u hts hu.1 hu.2 limit (by omega) htsne,
      dispatch_other_client ip ip2 hne ts now u2 hts hv.1 hv.2 limit hlim htsne]

/-- C6 witness: limit 2, client `a` at times 10 and 20 inside the window
ending at 60; the third request at time 30 is rejected 429/Retry-After 60,
while client `b` at time 40 is passed. -/
theorem rate_limit_sliding_window_witness :
    (dispatch (runSeq [] ([(10 : Int), 20].map (fun t => (("a" : String), t))) 2 2).1
        "a" 30 2 2).1 = .limited 429 60 "Rate limit exceeded" ∧
    (dispatch (dispatch (runSeq [] ([(10 : Int), 20].map
        (fun t => (("a" : String), t))) 2 2).1 "a" 30 2 2).2 "b" 40 2 2).1 =
      .passed 1 2 := by
  have h := rate_limit_sliding_window 2 (by decide) "a" "b" (by decide)
    [10, 20] 60 (by decide) (by decide) 30 40 (by decide) (by decide)
  exact ⟨h.2.1, h.2.2⟩

/-- C1: tokens missing `exp`, expired, or with a wrong audience are
rejected 401, and a well-formed token resolves to a context whose
`user_id` is the token's `sub`; but a token lacking `sub` is answered with
500 "Authentication processing error" — the 401 the code constructs is
swallowed by the blanket `except Exception` handler — contradicting the
claimed Unauthenticated (401) error. -/
theorem jwt_missing_sub_misreported_as_500 :
    get_current_user (some tokenMissingExp) true 100 =
      .httpError 401 "Invalid authentication token" ∧
    get_current_user (some tokenExpired) true 100 =
      .httpError 401 "Invalid authentication token" ∧
    get_current_user (some tokenBadAud) true 100 =
      .httpError 401 "Invalid authentication token" ∧
    get_current_user (some tokenGood) true 100 =
      .ok ⟨"user-123", some "u@example.com", "authenticated",
        some "authenticated", some "iss", some 0, some 200⟩ ∧
    get_current_user (some tokenMissingSub) true 100 =
      .httpError 500 "Authentication processing error" ∧
    (get_current_user (some tokenMissingSub) true 100).statusCode ≠ 401 := by
  refine ⟨by decide, by decide, by decide, by decide, by decide, by decide⟩

end ReplyPass
